import Mathlib

/-!
Verification development for the ANI shipping-file ETL script
(`src/mainfolder/main.py`).  The Python program is shallowly embedded:
spreadsheet cells become `Option String` (`none` models a missing value /
pandas NaN, `some s` models a cell whose textual content is `s`), the
intermediate CSV store becomes `Option (List (List String))` (`none` models
"the temp file does not exist"), and each method of `ANIProcessor` becomes an
executable Lean function.  Console prints that report skip conditions are
modelled by the `Diag` and `MainEvent` inductives; each constructor is tied to
a concrete `print` in the source, as documented at its declaration.

Modelling notes, fixed once here:
* character classes of the Python regexes (`[A-Za-z]`, `\d`, `\s`) are
  modelled over their ASCII meaning;
* pandas frames are modelled positionally: a row shorter than the header is
  padded with `none` (pandas pads with NaN), via `List.getD`;
* column labels are assumed not to collide after relabelling (pandas would
  return a multi-column block for duplicated labels; selection here takes the
  first occurrence);
* `pd.read_excel(file, sheet_name)` is modelled as already yielding the grid
  of the target sheet (the workbook container and the reader library are out
  of scope per the spec).
-/

/-- A spreadsheet cell: `none` is pandas NaN / a missing value, `some s` is a
cell whose textual content is `s`. -/
abbrev Cell := Option String

/-- Python `str()` conversion as applied by `.astype(str)`: NaN prints as
`"nan"`. -/
def cellToStr : Cell → String
  | none => "nan"
  | some s => s

/-- How `DataFrame.to_csv` renders a cell: NaN becomes an empty field. -/
def cellToCsv : Cell → String
  | none => ""
  | some s => s

/-- The ASCII whitespace characters of Python `str.strip` and of the regex
class `\s`. -/
def isPyWs (c : Char) : Bool :=
  c == ' ' || c == '\t' || c == '\n' || c == '\r' || c == '\x0b' || c == '\x0c'

/-- Python `str.strip()` on a character list. -/
def stripChars (l : List Char) : List Char :=
  ((l.dropWhile isPyWs).reverse.dropWhile isPyWs).reverse

/-- Python `str.strip()` (ASCII whitespace), also pandas `.str.strip()`. -/
def pyStrip (s : String) : String :=
  ⟨stripChars s.data⟩

/-- Python `str.capitalize()`: first character upper-cased, the rest
lower-cased (ASCII). -/
def pyCapitalize (s : String) : String :=
  match s.data with
  | [] => ""
  | c :: rest => ⟨c.toUpper :: rest.map Char.toLower⟩

/-- The regex class `[A-Za-z]`. -/
def isAsciiAlpha (c : Char) : Bool :=
  ('A' ≤ c && c ≤ 'Z') || ('a' ≤ c && c ≤ 'z')

/-- The regex class `\d` (ASCII). -/
def isAsciiDigit (c : Char) : Bool :=
  '0' ≤ c && c ≤ '9'

/-- `self.month_map` of `ANIProcessor.__init__`, in source order. -/
def month_map : List (String × String) :=
  [("Jan", "01"), ("Feb", "02"), ("Mar", "03"), ("Apr", "04"),
   ("May", "05"), ("Jun", "06"), ("Jul", "07"), ("Aug", "08"),
   ("Sep", "09"), ("Oct", "10"), ("Nov", "11"), ("Dec", "12")]

/-- The tail `\d{4}$` of the folder regex, applied to what follows the
hyphen.  Python `$` (no MULTILINE) matches at the end of the string or just
before one final newline, so exactly one trailing `'\n'` is also accepted. -/
def yearTail (l : List Char) : Option String :=
  if (l.take 4).length = 4 && (l.take 4).all isAsciiDigit
      && (l.drop 4 == [] || l.drop 4 == ['\n'])
  then some ⟨l.take 4⟩ else none

/-- `re.match(r'([A-Za-z]+)-(\d{4})$', folder_name)` of
`ANIProcessor.__init__`: returns the two captured groups
`(month_text, year)`.  `[A-Za-z]+` is greedy and cannot give letters back to
the literal `-`, so the maximal letter prefix is the only candidate. -/
def folderRe (s : String) : Option (String × String) :=
  match s.data.takeWhile isAsciiAlpha with
  | [] => none
  | _ :: _ =>
    match s.data.dropWhile isAsciiAlpha with
    | '-' :: rest => (yearTail rest).map (fun y => (⟨s.data.takeWhile isAsciiAlpha⟩, y))
    | _ => none

/-- The folder-derived metadata held on the processor instance after a
successful `__init__`. -/
structure FolderMeta where
  folderYear : String
  monthTextCap : String
  folderMonth : String
deriving DecidableEq, Repr

/-- Lines 29-34 of `ANIProcessor.__init__`: capitalize the month token and
require it to be a key of `month_map`, else raise `ValueError`. -/
def monthLookup (monthText year : String) : Except String FolderMeta :=
  match month_map.lookup (pyCapitalize monthText) with
  | none => .error ("Invalid month name " ++ pyCapitalize monthText ++ " in folder name")
  | some code => .ok ⟨year, pyCapitalize monthText, code⟩

/-- The validation part of `ANIProcessor.__init__` (lines 21-34): regex-match
the folder name, capitalize the month token, look it up in `month_map`;
a failure raises `ValueError` (modelled as `Except.error`). -/
def parseFolderName (folderName : String) : Except String FolderMeta :=
  match folderRe folderName with
  | none => .error ("Folder name " ++ folderName ++ " does not match expected format Mon-YYYY")
  | some (monthText, year) => monthLookup monthText year

/-- The intermediate CSV store contents: a list of CSV records (each a list of
fields).  The store on disk is `Option Store`: `none` means the temp file does
not exist. -/
abbrev Store := List (List String)

/-- `ANIProcessor.__init__` as a whole: lines 14-15 delete the temp CSV if it
exists (so the resulting store state is always `none`), then the folder name
is validated.  The deletion happens before the validation, hence also when
construction fails. -/
def ANIProcessor.init (_priorStore : Option Store) (folderName : String) :
    Option Store × Except String FolderMeta :=
  (none, parseFolderName folderName)

/-- `os.path.splitext(p)[0]` for a plain file name (CPython rule: the
extension starts at the last dot, unless every character before that dot is a
dot). -/
def splitextStem (l : List Char) : List Char :=
  match l.reverse.findIdx? (· == '.') with
  | none => l
  | some rIdx =>
    let sepIndex := l.length - 1 - rIdx
    if (l.take sepIndex).any (fun c => !(c == '.')) then l.take sepIndex else l

/-- `filename_no_ext.split("_FS")[0]`: the characters before the first
occurrence of `"_FS"` (the whole input when the marker is absent). -/
def beforeFS : List Char → List Char
  | [] => []
  | c :: rest =>
    if c == '_' && rest.take 2 == ['F', 'S'] then []
    else c :: beforeFS rest

/-- After a literal `"_FS"`, the rest of `re.search(r'_FS[\s_]*?(\d{2})-(\d{2})', ...)`:
lazily skip `[\s_]*` then require `dd-dd`.  Since the skipped class is
disjoint from `\d`, skipping the maximal run is the only candidate. -/
def fsDateTail (l : List Char) : Bool :=
  match l.dropWhile (fun c => isPyWs c || c == '_') with
  | a :: b :: '-' :: c :: d :: _ =>
    isAsciiDigit a && isAsciiDigit b && isAsciiDigit c && isAsciiDigit d
  | _ => false

/-- `re.search(r'_FS[\s_]*?(\d{2})-(\d{2})', s)` as a presence check: some
position starts `"_FS"` followed by `fsDateTail`. -/
def containsFsDate : List Char → Bool
  | [] => false
  | c :: rest =>
    (c == '_' && rest.take 2 == ['F', 'S'] && fsDateTail (rest.drop 2))
      || containsFsDate rest

/-- The `company_info` dict built by `ANIProcessor.parse_filename`. -/
structure FileMeta where
  fileName : String
  orgCode : String
  branchOrgCode : String
  docuDate : String
  dateYear : String
  dateMonth : String
deriving DecidableEq, Repr

/-- `ANIProcessor.parse_filename` (lines 36-53): strip the extension and
whitespace, take the prefix before `"_FS"` as the branch code, require the
`_FS<YY>-<MM>` shape (else print a diagnostic and return `None`), and tag
with the folder-derived month and year. -/
def ANIProcessor.parse_filename (fm : FolderMeta) (filename : String) : Option FileMeta :=
  let stem := stripChars (splitextStem filename.data)
  let branch : String := ⟨beforeFS stem⟩
  if containsFsDate stem then
    some ⟨filename, "ANI", branch,
      "01/" ++ fm.folderMonth ++ "/" ++ fm.folderYear, fm.folderYear, fm.folderMonth⟩
  else none

/-- One skip diagnostic or status line printed by the processor.  Constructor
to source line: `printedName` is the unconditional `print(file)` (line 112),
`filenamePatternMismatch` is the print at line 41, `anchorNotFound` line 70,
`missingColumns` line 85. -/
inductive Diag where
  | printedName (file : String)
  | filenamePatternMismatch (file : String)
  | anchorNotFound (file : String)
  | missingColumns (file : String) (cols : List String)
deriving DecidableEq, Repr

/-- The diagnostics among `Diag` that report a skipped file (everything except
the unconditional `print(file)`). -/
def isSkipDiag : Diag → Bool
  | .printedName _ => false
  | _ => true

/-- The anchor scan of `ANIProcessor.process_data` (lines 64-68): the first
row of the frame containing a cell equal to the literal string
`"Account No."`. -/
def findAnchor (rows : List (List Cell)) : Option Nat :=
  rows.findIdx? (fun r => r.contains (some "Account No."))

/-- `required_cols` (line 75). -/
def requiredCols : List String :=
  ["Account No.", "Account Description", "THB"]

/-- The relabelling dict of `data.rename` (lines 79-83). -/
def renameCol (s : String) : String :=
  if s == "Account No." then "AccCode"
  else if s == "Account Description" then "AccName"
  else if s == "THB" then "AcccumMonthAmnt"
  else s

/-- The row filter of line 90 applied to the key cell: keep a row when
`AccCode` is not NaN and does not strip to the empty string. -/
def keepAcc : Cell → Bool
  | none => false
  | some s => !(pyStrip s == "")

/-- `data[data["AccCode"].notna() & (data["AccCode"].astype(str).str.strip() != "")]`
on the projected three-column block. -/
def dropEmptyAcc (rows : List (Cell × Cell × Cell)) : List (Cell × Cell × Cell) :=
  rows.filter (fun t => keepAcc t.1)

/-- The projection `data[["AccCode", "AccName", "AcccumMonthAmnt"]]` after the
`rename` of lines 79-83: each canonical label is located at its first
occurrence among the relabelled columns, and every row is read at those three
positions (short rows yield NaN, as pandas pads). -/
def projectRows (cols : List String) (dataRows : List (List Cell)) :
    List (Cell × Cell × Cell) :=
  dataRows.map (fun r =>
    (r.getD ((cols.map renameCol).findIdx (· == "AccCode")) none,
     r.getD ((cols.map renameCol).findIdx (· == "AccName")) none,
     r.getD ((cols.map renameCol).findIdx (· == "AcccumMonthAmnt")) none))

/-- The five `insert` calls of lines 91-95 plus the three data columns: one
emitted CSV record. -/
def tagRow (info : FileMeta) (t : Cell × Cell × Cell) : List String :=
  [info.orgCode, info.branchOrgCode, info.docuDate, info.dateYear, info.dateMonth,
   cellToCsv t.1, cellToCsv t.2.1, cellToCsv t.2.2]

/-- Lines 75-95 of `process_data`, from the point where the column labels
`cols` (set from the located row, stringified and stripped) and the data rows
beneath it are known: check the required columns, relabel, project, filter
empty key rows, and prepend the five metadata columns. -/
def afterAnchor (info : FileMeta) (cols : List String) (dataRows : List (List Cell)) :
    Except Diag (List (List String)) :=
  if (requiredCols.filter (fun c => !(cols.contains c))).isEmpty then
    .ok ((dropEmptyAcc (projectRows cols dataRows)).map (tagRow info))
  else
    .error (.missingColumns info.fileName
      (requiredCols.filter (fun c => !(cols.contains c))))

/-- Lines 61-95 of `ANIProcessor.process_data` for a sheet grid:
`pd.read_excel` (default `header=0`) consumes the first sheet row as the
initial column labels, so the scanned frame rows are `grid.tail`; the anchor
scan yields a frame index `k`, `df.iloc[k]` (the very row in which the anchor
was found) becomes the new column labels, and the data block is everything
strictly below it. -/
def normalizeFile (info : FileMeta) (grid : List (List Cell)) :
    Except Diag (List (List String)) :=
  match findAnchor grid.tail with
  | none => .error (.anchorNotFound info.fileName)
  | some k =>
    afterAnchor info ((grid.tail.getD k []).map (fun c => pyStrip (cellToStr c)))
      (grid.tail.drop (k + 1))

/-- The CSV header written by `data.to_csv` (the column labels after the five
`insert` calls of lines 91-95). -/
def csvHeader : List String :=
  ["OrgCode", "BranchOrgCode", "DocuDate", "DateYear", "DateMonth",
   "AccCode", "AccName", "AcccumMonthAmnt"]

/-- Lines 97-99: `write_header = not os.path.exists(self.temp_csv)` then
`data.to_csv(..., mode="a", header=write_header)`.  Appending always creates
the file, even for an empty block. -/
def appendStore (store : Option Store) (block : List (List String)) : Option Store :=
  match store with
  | none => some (csvHeader :: block)
  | some rows => some (rows ++ block)

/-- `file.endswith(".xlsx")` (line 113). -/
def endsWithXlsx (s : String) : Bool :=
  s.data.reverse.take 5 == ['x', 's', 'l', 'x', '.']

/-- One file of the folder as delivered to the loop of `ANIProcessor.run`:
its name and the grid of the sheet named by the month (the sheet the
`pd.read_excel` call of line 61 selects). -/
structure FileInput where
  name : String
  grid : List (List Cell)
deriving DecidableEq, Repr

/-- The mutable state of one `ANIProcessor` instance during `run`: the
intermediate store on disk, `self.file_info`, and the printed diagnostics. -/
structure RunState where
  store : Option Store
  fileInfo : Option FileMeta
  log : List Diag
deriving DecidableEq, Repr

/-- One iteration of the loop of `ANIProcessor.run` (lines 111-123):
`print(file)`, skip non-`.xlsx` names, `parse_filename` (skip on `None`),
`process_data` (which may itself skip, after which `self.file_info` is still
assigned), then `self.file_info = company_info`. -/
def stepFile (fm : FolderMeta) (st : RunState) (f : FileInput) : RunState :=
  let st := { st with log := st.log ++ [Diag.printedName f.name] }
  if endsWithXlsx f.name then
    match ANIProcessor.parse_filename fm f.name with
    | none => { st with log := st.log ++ [Diag.filenamePatternMismatch f.name] }
    | some info =>
      match normalizeFile info f.grid with
      | .error d => { st with log := st.log ++ [d], fileInfo := some info }
      | .ok block =>
        { st with store := appendStore st.store block, fileInfo := some info }
  else st

/-- The whole file loop of `ANIProcessor.run`. -/
def runLoop (fm : FolderMeta) (st : RunState) (files : List FileInput) : RunState :=
  files.foldl (stepFile fm) st

/-- The final artifact written by `ANIProcessor.convert_csv_to_xlsx`: its
base name `ANI-<year>-<month>` and the table written to it. -/
structure Artifact where
  name : String
  table : Store
deriving DecidableEq, Repr

/-- `ANIProcessor.convert_csv_to_xlsx` (lines 102-107): `pd.read_csv` on the
temp CSV (raising if the file does not exist, modelled as `Except.error`),
then write the whole table to `ANI-<year>-<month>.xlsx`. -/
def convert_csv_to_xlsx (info : FileMeta) (store : Option Store) : Except String Artifact :=
  match store with
  | none => .error "read_csv: temp csv file does not exist"
  | some rows => .ok ⟨"ANI-" ++ info.dateYear ++ "-" ++ info.dateMonth, rows⟩

/-- `ANIProcessor.run` (lines 110-125): the file loop, then, if
`self.file_info` is truthy, exactly one call of `convert_csv_to_xlsx`. -/
def ANIProcessor.run (fm : FolderMeta) (st : RunState) (files : List FileInput) :
    RunState × Option (Except String Artifact) :=
  let st := runLoop fm st files
  (st, st.fileInfo.map (fun info => convert_csv_to_xlsx info st.store))

/-- Construction plus run of one `ANIProcessor` instance, as `main` performs
it for one matching folder (line 145-146).  A construction failure is the
uncaught `ValueError`. -/
def processFolder (priorStore : Option Store) (folderName : String)
    (files : List FileInput) : Except String (RunState × Option (Except String Artifact)) :=
  match ANIProcessor.init priorStore folderName with
  | (_, .error e) => .error e
  | (st0, .ok fm) => .ok (ANIProcessor.run fm ⟨st0, none, []⟩ files)

/-- One entry of the input root directory as `main` sees it. -/
structure DirEntry where
  name : String
  isDir : Bool
  files : List FileInput
deriving DecidableEq, Repr

/-- The month alternation of the folder filter regex in `main` (line 144). -/
def monthAbbrevs : List String := month_map.map (·.1)

/-- `re.match(r"^(Jan|...|Dec)-\d{4}$", name, re.IGNORECASE)` (line 144) as a
Boolean: three characters case-insensitively equal to a month abbreviation, a
hyphen, four digits, and (Python `$`) at most one trailing newline. -/
def mainFolderPat (s : String) : Bool :=
  match s.data with
  | a :: b :: c :: '-' :: rest =>
    monthAbbrevs.any (fun m => m.data.map Char.toLower == [a, b, c].map Char.toLower)
      && (yearTail rest).isSome
  | _ => false

deriving instance DecidableEq for Except

/-- What `main` does with one directory entry.  Constructor to source:
`folderDone` is the construct-and-run branch (lines 145-146),
`skipWrongFormat` is the branch that prints the wrong-format warning
(line 148), `skipNonDir` is the fall-through for a non-directory entry, for
which the source prints nothing. -/
inductive MainEvent where
  | folderDone (name : String) (finalized : Option (Except String Artifact))
  | skipWrongFormat (name : String)
  | skipNonDir (name : String)
deriving DecidableEq, Repr

/-- Whether the branch recorded by the event prints a skip diagnostic in the
source: only the wrong-format branch does. -/
def eventHasDiagnostic : MainEvent → Bool
  | .skipWrongFormat _ => true
  | _ => false

/-- Lexicographic comparison of character lists by code point, the order in
which Python compares the path strings when `sorted` runs. -/
def charListLt : List Char → List Char → Bool
  | [], [] => false
  | [], _ :: _ => true
  | _ :: _, [] => false
  | a :: as, b :: bs => if a < b then true else if b < a then false else charListLt as bs

/-- Stable insertion into a name-sorted list (ties keep the earlier element
first), implementing the order `sorted(input_folder.iterdir())` visits
entries of one parent directory: ascending name order. -/
def insertEntry (e : DirEntry) : List DirEntry → List DirEntry
  | [] => [e]
  | x :: xs =>
    if charListLt x.name.data e.name.data then x :: insertEntry e xs else e :: x :: xs

/-- `sorted(...)` of line 142: stable ascending sort by entry name. -/
def sortEntries : List DirEntry → List DirEntry
  | [] => []
  | e :: xs => insertEntry e (sortEntries xs)

/-- The folder scan of `main` (lines 142-148) over already-sorted entries,
threading the on-disk temp store.  An uncaught exception — a `ValueError`
from construction, or the `convert_csv_to_xlsx` read failure surfacing from
`run` — aborts the whole scan; the third component records it. -/
def mainScan (store : Option Store) : List DirEntry → List MainEvent × Option Store × Option String
  | [] => ([], store, none)
  | e :: rest =>
    if e.isDir then
      if mainFolderPat e.name then
        match processFolder store e.name e.files with
        | .error msg => ([], store, some msg)
        | .ok (st, fin) =>
          match fin with
          | some (.error msg) => ([], st.store, some msg)
          | _ =>
            (MainEvent.folderDone e.name fin :: (mainScan st.store rest).1,
             (mainScan st.store rest).2)
      else
        (MainEvent.skipWrongFormat e.name :: (mainScan store rest).1,
         (mainScan store rest).2)
    else
      (MainEvent.skipNonDir e.name :: (mainScan store rest).1,
       (mainScan store rest).2)

/-- `main` (lines 135-155): sort the root directory entries, then scan them.
Configuration loading and the post-loop directory existence checks are I/O
plumbing outside the model. -/
def pymain (entries : List DirEntry) (priorStore : Option Store) :
    List MainEvent × Option Store × Option String :=
  mainScan priorStore (sortEntries entries)

/-- The normalized row block one loop iteration appends for a file, if any:
`none` when the file is skipped (non-`.xlsx` name, filename pattern mismatch,
anchor not found, or missing required columns). -/
def fileBlock (fm : FolderMeta) (f : FileInput) : Option (List (List String)) :=
  if endsWithXlsx f.name then
    match ANIProcessor.parse_filename fm f.name with
    | some info => (normalizeFile info f.grid).toOption
    | none => none
  else none

/-- The blocks appended during one run, in file-processing order. -/
def blocksOf (fm : FolderMeta) (files : List FileInput) : List (List (List String)) :=
  files.filterMap (fileBlock fm)

/-- The store contents resulting from appending the given blocks in order to
a store in the given initial state: the header row is written exactly when
the store did not exist, and an absent store stays absent when there is
nothing to append. -/
def storeAfter : Option Store → List (List (List String)) → Option Store
  | none, [] => none
  | none, bs => some (csvHeader :: bs.flatten)
  | some rows, bs => some (rows ++ bs.flatten)

/-- The metadata of the last file of the run whose name parsed successfully
(the final value of `self.file_info`). -/
def lastParsed (fm : FolderMeta) (files : List FileInput) : Option FileMeta :=
  ((files.filter (fun f => endsWithXlsx f.name)).filterMap
    (fun f => ANIProcessor.parse_filename fm f.name)).getLast?

/-- The finalization outcome of processing one matching folder from a fresh
processor instance. -/
def folderOutcome (e : DirEntry) : Option (Except String Artifact) :=
  match processFolder none e.name e.files with
  | .error _ => none
  | .ok (_, fin) => fin

/-- Per-entry characterization of what `main` records for one directory
entry. -/
def entryEvent (e : DirEntry) : MainEvent :=
  if e.isDir then
    if mainFolderPat e.name then .folderDone e.name (folderOutcome e)
    else .skipWrongFormat e.name
  else .skipNonDir e.name

/-- A file-class error in the sense of claim C4: an `.xlsx` file whose name
fails the `_FS<YY>-<MM>` pattern, or whose sheet lacks the anchor row or a
required column. -/
def fileClassError (fm : FolderMeta) (f : FileInput) : Prop :=
  endsWithXlsx f.name = true ∧
  (ANIProcessor.parse_filename fm f.name = none ∨
   ∃ info d, ANIProcessor.parse_filename fm f.name = some info ∧
     normalizeFile info f.grid = .error d)

/-- Modelled from the claim C1 wording: a folder name of the exact shape
`Mon-YYYY` — letters, hyphen, four digits and nothing after them — whose
month token capitalizes to a recognized three-letter abbreviation. -/
def claimFolderShape (s : String) : Bool :=
  !(s.data.takeWhile isAsciiAlpha).isEmpty
    && (match s.data.dropWhile isAsciiAlpha with
        | '-' :: rest =>
          rest.length == 4 && rest.all isAsciiDigit
            && (month_map.lookup (pyCapitalize ⟨s.data.takeWhile isAsciiAlpha⟩)).isSome
        | _ => false)

/-- Modelled from the claim C2 wording, for comparison with `normalizeFile`:
scan the sheet rows for the anchor label, reinterpret the row immediately
BELOW the anchor row as the column header row (the anchor row being only a
locator), and take the rows beneath that header as the data block. -/
def claimNormalizeFile (info : FileMeta) (grid : List (List Cell)) :
    Except Diag (List (List String)) :=
  match findAnchor grid with
  | none => .error (.anchorNotFound info.fileName)
  | some k =>
    afterAnchor info ((grid.getD (k + 1) []).map (fun c => pyStrip (cellToStr c)))
      (grid.drop (k + 2))

/-- The folder metadata the processor derives for a folder named
`Jun-2025`. -/
def juneMeta : FolderMeta := ⟨"2025", "Jun", "06"⟩

/-- A sheet whose anchor row sits at sheet index 1: a title row, the header
row carrying the anchor label, and two data rows. -/
def c2Grid : List (List Cell) :=
  [[some "Report"],
   [some "Account No.", some "Account Description", some "THB"],
   [some "A1", some "Cash", some "10"],
   [some "A2", some "Bank", some "20"]]

/-- File metadata as parsed for `BKK01_FS25-06.xlsx` inside `Jun-2025`. -/
def bkkInfo : FileMeta :=
  ⟨"BKK01_FS25-06.xlsx", "ANI", "BKK01", "01/06/2025", "2025", "06"⟩

/-- A well-formed sheet with one data row. -/
def w3Grid : List (List Cell) :=
  [[some "Title"],
   [some "Account No.", some "Account Description", some "THB"],
   [some "A1", some "Cash", some "10"]]

/-- The normalized block `w3Grid` yields under `bkkInfo`. -/
def w3Block : List (List String) :=
  [["ANI", "BKK01", "01/06/2025", "2025", "06", "A1", "Cash", "10"]]

/-- One good file for witness runs. -/
def w6Files : List FileInput := [⟨"BKK01_FS25-06.xlsx", w3Grid⟩]

/-- A sheet with no anchor label anywhere below the consumed first row. -/
def c10Grid : List (List Cell) :=
  [[some "Title"], [some "no", some "anchor"], [some "data", some "row"]]

/-- A folder whose only file has a well-formed name but an anchorless sheet:
metadata is captured, yet nothing is ever appended. -/
def c10Files : List FileInput := [⟨"BKK01_FS25-06.xlsx", c10Grid⟩]

theorem takeWhile_append_stop {α : Type} (p : α → Bool) (a : List α) (c : α) (b : List α)
    (ha : ∀ x ∈ a, p x = true) (hc : p c = false) :
    (a ++ c :: b).takeWhile p = a := by
  induction a with
  | nil => simp [List.takeWhile_cons, hc]
  | cons x xs ih =>
    have hx : p x = true := ha x (by simp)
    simp only [List.cons_append, List.takeWhile_cons, hx, if_true]
    rw [ih (fun y hy => ha y (by simp [hy]))]

theorem dropWhile_append_stop {α : Type} (p : α → Bool) (a : List α) (c : α) (b : List α)
    (ha : ∀ x ∈ a, p x = true) (hc : p c = false) :
    (a ++ c :: b).dropWhile p = c :: b := by
  induction a with
  | nil => simp [List.dropWhile_cons, hc]
  | cons x xs ih =>
    have hx : p x = true := ha x (by simp)
    simp only [List.cons_append, List.dropWhile_cons, hx, if_true]
    exact ih (fun y hy => ha y (by simp [hy]))

theorem findIdx?_start_eq {α : Type} (p : α → Bool) (d : α) (l : List α) (k s : Nat)
    (hk : k < l.length) (h1 : p (l.getD k d) = true)
    (h2 : ∀ j, j < k → p (l.getD j d) = false) :
    l.findIdx? p s = some (s + k) := by
  induction l generalizing k s with
  | nil => simp at hk
  | cons a t ih =>
    cases k with
    | zero =>
      simp only [List.getD_cons_zero] at h1
      simp [List.findIdx?_cons, h1]
    | succ k =>
      have h0 : p a = false := by
        have := h2 0 (Nat.succ_pos k)
        simpa using this
      simp only [List.findIdx?_cons, h0, if_neg, Bool.false_eq_true, not_false_iff, if_false]
      have := ih k (s + 1) (by simpa using hk) (by simpa using h1)
        (fun j hj => by
          have := h2 (j + 1) (by omega)
          simpa using this)
      rw [this]
      congr 1
      omega

theorem getLast?_cons_eq_or {α : Type} (a : α) (l : List α) :
    (a :: l).getLast? = l.getLast?.or (some a) := by
  cases l with
  | nil => rfl
  | cons b t =>
    rw [List.getLast?_cons_cons]
    have hs : (b :: t).getLast?.isSome = true := List.getLast?_isSome.mpr (by simp)
    obtain ⟨x, hx⟩ := Option.isSome_iff_exists.mp hs
    rw [hx]
    rfl

theorem stepFile_store (fm : FolderMeta) (st : RunState) (f : FileInput) :
    (stepFile fm st f).store =
      match fileBlock fm f with
      | some b => appendStore st.store b
      | none => st.store := by
  unfold stepFile fileBlock
  cases hx : endsWithXlsx f.name
  · simp
  · simp only [if_true]
    cases hp : ANIProcessor.parse_filename fm f.name
    · simp
    · simp only []
      cases hn : normalizeFile _ f.grid <;> simp [Except.toOption, hn]

theorem stepFile_fileInfo (fm : FolderMeta) (st : RunState) (f : FileInput) :
    (stepFile fm st f).fileInfo =
      (if endsWithXlsx f.name then ANIProcessor.parse_filename fm f.name else none).or
        st.fileInfo := by
  unfold stepFile
  cases hx : endsWithXlsx f.name
  · simp [Option.or]
  · simp only [if_true]
    cases hp : ANIProcessor.parse_filename fm f.name with
    | none => simp [Option.or]
    | some info => cases hn : normalizeFile info f.grid <;> simp [Option.or, hn]

theorem storeAfter_append (s : Option Store) (b : List (List String))
    (bs : List (List (List String))) :
    storeAfter (appendStore s b) bs = storeAfter s (b :: bs) := by
  cases s <;> simp [appendStore, storeAfter, List.flatten_cons, List.append_assoc]

theorem runLoop_store_char (fm : FolderMeta) (files : List FileInput) (st : RunState) :
    (runLoop fm st files).store = storeAfter st.store (blocksOf fm files) := by
  induction files generalizing st with
  | nil =>
    cases h : st.store <;> simp [runLoop, blocksOf, storeAfter, h]
  | cons f rest ih =>
    show (runLoop fm (stepFile fm st f) rest).store = _
    rw [ih, stepFile_store]
    unfold blocksOf
    rw [List.filterMap_cons]
    cases hb : fileBlock fm f
    · simp only [hb]
    · simp only [hb]
      exact storeAfter_append st.store _ _

theorem runLoop_fileInfo_char (fm : FolderMeta) (files : List FileInput) (st : RunState) :
    (runLoop fm st files).fileInfo = (lastParsed fm files).or st.fileInfo := by
  induction files generalizing st with
  | nil => simp [runLoop, lastParsed, Option.or]
  | cons f rest ih =>
    show (runLoop fm (stepFile fm st f) rest).fileInfo = _
    rw [ih, stepFile_fileInfo]
    have hstep : lastParsed fm (f :: rest) =
        (lastParsed fm rest).or
          (if endsWithXlsx f.name then ANIProcessor.parse_filename fm f.name else none) := by
      unfold lastParsed
      cases hx : endsWithXlsx f.name
      · simp [List.filter_cons, hx, Option.or_none]
      · simp only [List.filter_cons, hx, if_true]
        rw [List.filterMap_cons]
        cases hp : ANIProcessor.parse_filename fm f.name
        · simp [Option.or_none]
        · simp only []
          rw [getLast?_cons_eq_or]
    rw [hstep, Option.or_assoc]

theorem normalizeFile_error_skipDiag (info : FileMeta) (g : List (List Cell)) (d : Diag)
    (h : normalizeFile info g = .error d) : isSkipDiag d = true := by
  unfold normalizeFile afterAnchor at h
  split at h
  · cases h
    rfl
  · split at h
    · cases h
    · cases h
      rfl

theorem processFolder_prior_irrel (p : Option Store) (n : String) (fs : List FileInput) :
    processFolder p n fs = processFolder none n fs := rfl

theorem charListLt_iff : ∀ (a b : List Char), charListLt a b = true ↔ List.lt a b
  | [], [] => by
    constructor
    · intro h
      simp [charListLt] at h
    · intro h
      cases h
  | [], b :: bs => by
    constructor
    · intro _
      exact List.lt.nil b bs
    · intro _
      rfl
  | a :: as, [] => by
    constructor
    · intro h
      simp [charListLt] at h
    · intro h
      cases h
  | a :: as, b :: bs => by
    unfold charListLt
    by_cases h1 : a < b
    · rw [if_pos h1]
      constructor
      · intro _
        exact List.lt.head as bs h1
      · intro _
        rfl
    · rw [if_neg h1]
      by_cases h2 : b < a
      · rw [if_pos h2]
        constructor
        · intro h
          cases h
        · intro h
          cases h with
          | head _ _ hab => exact absurd hab h1
          | tail hab hba ht => exact absurd h2 hba
      · rw [if_neg h2]
        rw [charListLt_iff as bs]
        constructor
        · intro h
          exact List.lt.tail h1 h2 h
        · intro h
          cases h with
          | head _ _ hab => exact absurd hab h1
          | tail hab hba ht => exact ht

theorem string_lt_iff (x y : String) : x < y ↔ charListLt x.data y.data = true := by
  rw [String.lt_iff_toList_lt]
  have hlex : x.toList < y.toList ↔ List.lt x.data y.data := by
    show List.Lex (fun a b => a < b) x.data y.data ↔ _
    exact (List.lt_iff_lex_lt x.data y.data).symm
  rw [hlex]
  exact (charListLt_iff x.data y.data).symm

theorem mem_insertEntry (b e : DirEntry) (l : List DirEntry) :
    b ∈ insertEntry e l ↔ b = e ∨ b ∈ l := by
  induction l with
  | nil => simp [insertEntry]
  | cons x xs ih =>
    unfold insertEntry
    by_cases hlt : charListLt x.name.data e.name.data = true
    · rw [if_pos hlt]
      simp only [List.mem_cons, ih]
      tauto
    · rw [if_neg hlt]
      exact List.mem_cons

theorem pairwise_insertEntry (e : DirEntry) (l : List DirEntry)
    (h : l.Pairwise (fun a b => a.name ≤ b.name)) :
    (insertEntry e l).Pairwise (fun a b => a.name ≤ b.name) := by
  induction l with
  | nil => simp [insertEntry]
  | cons x xs ih =>
    rw [List.pairwise_cons] at h
    obtain ⟨hx, hxs⟩ := h
    unfold insertEntry
    by_cases hlt : charListLt x.name.data e.name.data = true
    · rw [if_pos hlt]
      rw [List.pairwise_cons]
      refine ⟨?_, ih hxs⟩
      intro b hb
      rcases (mem_insertEntry b e xs).mp hb with hbe | hbx
      · subst hbe
        exact le_of_lt ((string_lt_iff x.name b.name).mpr hlt)
      · exact hx b hbx
    · rw [if_neg hlt]
      rw [List.pairwise_cons]
      refine ⟨?_, List.pairwise_cons.mpr ⟨hx, hxs⟩⟩
      intro b hb
      have hex : e.name ≤ x.name :=
        le_of_not_lt (fun hc => hlt ((string_lt_iff x.name e.name).mp hc))
      rcases List.mem_cons.mp hb with hbx | hbxs
      · subst hbx
        exact hex
      · exact le_trans hex (hx b hbxs)

theorem sortEntries_sorted (l : List DirEntry) :
    (sortEntries l).Pairwise (fun a b => a.name ≤ b.name) := by
  induction l with
  | nil => simp [sortEntries]
  | cons e xs ih => exact pairwise_insertEntry e (sortEntries xs) ih

theorem mainScan_events (l : List DirEntry) (store : Option Store)
    (hok : (mainScan store l).2.2 = none) :
    (mainScan store l).1 = l.map entryEvent := by
  induction l generalizing store with
  | nil => simp [mainScan]
  | cons e rest ih =>
    unfold mainScan at hok ⊢
    by_cases hd : e.isDir
    · rw [if_pos hd] at hok ⊢
      by_cases hp : mainFolderPat e.name
      · rw [if_pos hp] at hok ⊢
        cases hpf : processFolder store e.name e.files with
        | error msg =>
          rw [hpf] at hok
          have hok2 : (some msg : Option String) = none := hok
          cases hok2
        | ok r =>
          obtain ⟨st, fin⟩ := r
          rw [hpf] at hok
          have hfo : folderOutcome e = fin := by
            unfold folderOutcome
            rw [← processFolder_prior_irrel store, hpf]
          cases fin with
          | none =>
            have hok2 : (mainScan st.store rest).2.2 = none := hok
            show MainEvent.folderDone e.name none :: (mainScan st.store rest).1
              = List.map entryEvent (e :: rest)
            rw [List.map_cons, ih st.store hok2]
            unfold entryEvent
            rw [if_pos hd, if_pos hp, hfo]
          | some x =>
            cases x with
            | error msg =>
              have hok2 : (some msg : Option String) = none := hok
              cases hok2
            | ok a =>
              have hok2 : (mainScan st.store rest).2.2 = none := hok
              show MainEvent.folderDone e.name (some (Except.ok a)) :: (mainScan st.store rest).1
                = List.map entryEvent (e :: rest)
              rw [List.map_cons, ih st.store hok2]
              unfold entryEvent
              rw [if_pos hd, if_pos hp, hfo]
      · rw [if_neg hp] at hok ⊢
        have hok2 : (mainScan store rest).2.2 = none := hok
        show MainEvent.skipWrongFormat e.name :: (mainScan store rest).1
          = List.map entryEvent (e :: rest)
        rw [List.map_cons, ih store hok2]
        unfold entryEvent
        rw [if_pos hd, if_neg hp]
    · rw [if_neg hd] at hok ⊢
      have hok2 : (mainScan store rest).2.2 = none := hok
      show MainEvent.skipNonDir e.name :: (mainScan store rest).1
        = List.map entryEvent (e :: rest)
      rw [List.map_cons, ih store hok2]
      unfold entryEvent
      rw [if_neg hd]

theorem yearTail_eq_some_iff (l : List Char) (y : String) :
    yearTail l = some y ↔
      y.data.length = 4 ∧ y.data.all isAsciiDigit = true ∧
      (l = y.data ∨ l = y.data ++ ['\n']) := by
  unfold yearTail
  constructor
  · intro h
    split at h
    · rename_i hcond
      cases h
      simp only [Bool.and_eq_true, Bool.or_eq_true, beq_iff_eq, decide_eq_true_eq] at hcond
      obtain ⟨⟨hlen, hdig⟩, hdrop⟩ := hcond
      refine ⟨hlen, hdig, ?_⟩
      rcases hdrop with h4 | h4
      · left
        conv_lhs => rw [← List.take_append_drop 4 l]
        rw [h4, List.append_nil]
      · right
        conv_lhs => rw [← List.take_append_drop 4 l]
        rw [h4]
    · cases h
  · intro h
    obtain ⟨hlen, hdig, hdec⟩ := h
    rcases hdec with h | h
    · subst h
      have ht : y.data.take 4 = y.data := List.take_of_length_le (le_of_eq hlen)
      have hd : y.data.drop 4 = [] := List.drop_of_length_le (le_of_eq hlen)
      rw [if_pos]
      · rw [ht]
      · simp [ht, hd, hlen, hdig]
    · subst h
      have ht : (y.data ++ ['\n']).take 4 = y.data := List.take_left' hlen
      have hd : (y.data ++ ['\n']).drop 4 = ['\n'] := List.drop_left' hlen
      rw [if_pos]
      · rw [ht]
      · simp [ht, hd, hlen, hdig]

theorem folderRe_eq_some_iff (s mon y : String) :
    folderRe s = some (mon, y) ↔
      mon.data ≠ [] ∧ mon.data.all isAsciiAlpha = true ∧
      y.data.length = 4 ∧ y.data.all isAsciiDigit = true ∧
      (s.data = mon.data ++ '-' :: y.data ∨
       s.data = mon.data ++ '-' :: (y.data ++ ['\n'])) := by
  constructor
  · intro h
    unfold folderRe at h
    split at h
    · cases h
    · rename_i a t ht
      split at h
      · rename_i rest hd
        rw [Option.map_eq_some'] at h
        obtain ⟨y', hy', hpair⟩ := h
        rw [Prod.mk.injEq] at hpair
        obtain ⟨hmon, hyy⟩ := hpair
        rw [hyy] at hy'
        have hmdata : mon.data = s.data.takeWhile isAsciiAlpha := by
          rw [← hmon]
        obtain ⟨hlen, hdig, hrest⟩ := (yearTail_eq_some_iff rest y).mp hy'
        refine ⟨?_, ?_, hlen, hdig, ?_⟩
        · rw [hmdata, ht]
          simp
        · rw [hmdata]
          rw [List.all_eq_true]
          exact fun x hx => List.mem_takeWhile_imp hx
        · have hsplit : s.data = mon.data ++ '-' :: rest := by
            rw [hmdata, ← hd, List.takeWhile_append_dropWhile]
          rcases hrest with hr | hr
          · left
            rw [hsplit, hr]
          · right
            rw [hsplit, hr]
      · cases h
  · intro h
    obtain ⟨hne, halpha, hlen, hdig, hdec⟩ := h
    have halpha' : ∀ x ∈ mon.data, isAsciiAlpha x = true := List.all_eq_true.mp halpha
    have hdash : isAsciiAlpha '-' = false := by decide
    have hyt : ∀ nl, (nl = ([] : List Char) ∨ nl = ['\n']) →
        yearTail (y.data ++ nl) = some y := by
      intro nl hnl
      rw [yearTail_eq_some_iff]
      rcases hnl with h | h
      · subst h
        exact ⟨hlen, hdig, Or.inl (List.append_nil _)⟩
      · subst h
        exact ⟨hlen, hdig, Or.inr rfl⟩
    rcases hdec with hs | hs
    · have htw : s.data.takeWhile isAsciiAlpha = mon.data := by
        rw [hs]
        exact takeWhile_append_stop isAsciiAlpha mon.data '-' y.data halpha' hdash
      have hdw : s.data.dropWhile isAsciiAlpha = '-' :: y.data := by
        rw [hs]
        exact dropWhile_append_stop isAsciiAlpha mon.data '-' y.data halpha' hdash
      unfold folderRe
      rw [htw, hdw]
      obtain ⟨a, t, hat⟩ : ∃ a t, mon.data = a :: t := by
        cases hm : mon.data with
        | nil => exact absurd hm hne
        | cons a t => exact ⟨a, t, rfl⟩
      rw [hat]
      have hyt' := hyt [] (Or.inl rfl)
      rw [List.append_nil] at hyt'
      show (yearTail y.data).map (fun z => ((⟨a :: t⟩ : String), z)) = some (mon, y)
      rw [hyt']
      show some ((⟨a :: t⟩ : String), y) = some (mon, y)
      rw [← hat]
    · have htw : s.data.takeWhile isAsciiAlpha = mon.data := by
        rw [hs]
        exact takeWhile_append_stop isAsciiAlpha mon.data '-' (y.data ++ ['\n']) halpha' hdash
      have hdw : s.data.dropWhile isAsciiAlpha = '-' :: (y.data ++ ['\n']) := by
        rw [hs]
        exact dropWhile_append_stop isAsciiAlpha mon.data '-' (y.data ++ ['\n']) halpha' hdash
      unfold folderRe
      rw [htw, hdw]
      obtain ⟨a, t, hat⟩ : ∃ a t, mon.data = a :: t := by
        cases hm : mon.data with
        | nil => exact absurd hm hne
        | cons a t => exact ⟨a, t, rfl⟩
      rw [hat]
      have hyt' := hyt ['\n'] (Or.inr rfl)
      show (yearTail (y.data ++ ['\n'])).map (fun z => ((⟨a :: t⟩ : String), z)) = some (mon, y)
      rw [hyt']
      show some ((⟨a :: t⟩ : String), y) = some (mon, y)
      rw [← hat]

/-- C1 counterexample: the folder name built from `Jun-2025` plus one
trailing newline does not have the claimed `Mon-YYYY` shape, yet construction
succeeds (Python `$` matches just before a final newline), contradicting the
claim that every name not matching the shape makes construction fail fast. -/
theorem c1_counterexample :
    claimFolderShape "Jun-2025\n" = false ∧
    (ANIProcessor.init none "Jun-2025\n").2 = .ok ⟨"2025", "Jun", "06"⟩ := by
  exact ⟨by decide, by decide⟩

/-- C1 (amended): construction succeeds exactly on names that are a letter
block, a hyphen, four digits, and at most one trailing newline, with the
capitalized month token in the month table; the derived year is the 4-digit
group and the derived month is the 2-digit code of the canonicalized month.
For every other folder name construction fails, before any file is read. -/
theorem c1_amended (s : String) (meta : FolderMeta) :
    (ANIProcessor.init none s).2 = .ok meta ↔
    ∃ mon y nl : String,
      s = mon ++ "-" ++ y ++ nl ∧ mon.data ≠ [] ∧ mon.data.all isAsciiAlpha = true ∧
      y.data.length = 4 ∧ y.data.all isAsciiDigit = true ∧ (nl = "" ∨ nl = "\n") ∧
      month_map.lookup (pyCapitalize mon) = some meta.folderMonth ∧
      meta.folderYear = y ∧ meta.monthTextCap = pyCapitalize mon := by
  have hinit : (ANIProcessor.init none s).2 = parseFolderName s := rfl
  rw [hinit]
  unfold parseFolderName
  constructor
  · intro h
    split at h
    · cases h
    · rename_i mt yr hre
      unfold monthLookup at h
      split at h
      · cases h
      · rename_i code hlook
        cases h
        obtain ⟨hne, halpha, hlen, hdig, hdec⟩ := (folderRe_eq_some_iff s mt yr).mp hre
        rcases hdec with hs | hs
        · refine ⟨mt, yr, "", ?_, hne, halpha, hlen, hdig, Or.inl rfl, hlook, rfl, rfl⟩
          apply String.ext
          rw [hs]
          simp [String.data_append]
        · refine ⟨mt, yr, "\n", ?_, hne, halpha, hlen, hdig, Or.inr rfl, hlook, rfl, rfl⟩
          apply String.ext
          rw [hs]
          simp [String.data_append]
  · intro h
    obtain ⟨mon, y, nl, hs, hne, halpha, hlen, hdig, hnl, hlook, hyear, hcap⟩ := h
    have hre : folderRe s = some (mon, y) := by
      rw [folderRe_eq_some_iff]
      refine ⟨hne, halpha, hlen, hdig, ?_⟩
      rcases hnl with hn | hn
      · left
        subst hn
        have := congrArg String.data hs
        simpa [String.data_append] using this
      · right
        subst hn
        have := congrArg String.data hs
        simpa [String.data_append] using this
    rw [hre]
    obtain ⟨my, mc, mm⟩ := meta
    simp only at hlook hyear hcap
    subst hyear
    subst hcap
    show monthLookup mon my = Except.ok ⟨my, pyCapitalize mon, mm⟩
    unfold monthLookup
    rw [hlook]

/-- C1 witness: the claimed example input: folder `jun-2025` yields year
`2025` and month `06`. -/
theorem c1_witness :
    (ANIProcessor.init none "jun-2025").2 = .ok ⟨"2025", "Jun", "06"⟩ :=
  (c1_amended "jun-2025" ⟨"2025", "Jun", "06"⟩).mpr
    ⟨"jun", "2025", "", by decide, by decide, by decide, by decide, by decide,
     Or.inl rfl, by decide, rfl, by decide⟩

/-- C2 counterexample: on a sheet whose anchor label sits in sheet row 1, the
code reinterprets the anchor row ITSELF as the column header row (its data
block starts immediately below the anchor), whereas the claimed behaviour —
header taken from the row immediately below the anchor — would find the
required columns missing and skip the file.  The claim and the code disagree
on this grid. -/
theorem c2_counterexample :
    normalizeFile bkkInfo c2Grid =
      .ok [["ANI", "BKK01", "01/06/2025", "2025", "06", "A1", "Cash", "10"],
           ["ANI", "BKK01", "01/06/2025", "2025", "06", "A2", "Bank", "20"]] ∧
    claimNormalizeFile bkkInfo c2Grid =
      .error (.missingColumns "BKK01_FS25-06.xlsx"
        ["Account No.", "Account Description", "THB"]) ∧
    normalizeFile bkkInfo c2Grid ≠ claimNormalizeFile bkkInfo c2Grid := by
  exact ⟨by decide, by decide, by decide⟩

/-- C2 (amended): after `pd.read_excel` consumes the first sheet row as the
initial reader header, the scan runs over the remaining rows; once the first
of them containing the literal `"Account No."` is located at frame index `k`,
that very row (stringified and stripped) becomes the column header row, and
the data block consists of the rows strictly beneath it. -/
theorem c2_amended (info : FileMeta) (grid : List (List Cell)) (k : Nat)
    (hk : k < grid.tail.length)
    (h1 : (grid.tail.getD k []).contains (some "Account No.") = true)
    (h2 : ∀ j, j < k → (grid.tail.getD j []).contains (some "Account No.") = false) :
    normalizeFile info grid =
      afterAnchor info ((grid.tail.getD k []).map (fun c => pyStrip (cellToStr c)))
        (grid.tail.drop (k + 1)) := by
  have hfind : findAnchor grid.tail = some k := by
    unfold findAnchor
    have h := findIdx?_start_eq (fun r => r.contains (some "Account No.")) []
      grid.tail k 0 hk h1 h2
    simpa using h
  unfold normalizeFile
  rw [hfind]

/-- C2 witness: the amended statement applied to a concrete sheet whose
anchor row is the first frame row. -/
theorem c2_witness :
    normalizeFile bkkInfo w3Grid =
      afterAnchor bkkInfo ((w3Grid.tail.getD 0 []).map (fun c => pyStrip (cellToStr c)))
        (w3Grid.tail.drop 1) :=
  c2_amended bkkInfo w3Grid 0 (by decide) (by decide)
    (fun j hj => absurd hj (Nat.not_lt_zero j))

/-- C3: for a file whose name parses and whose data block passes validation,
every emitted row has exactly the eight canonical columns in the fixed order
(`csvHeader`), its five leading metadata fields are the same for every row of
the file — `OrgCode` is the constant `"ANI"` and `DocuDate` is
`01/<month>/<year>` built from the folder-derived month and year — and only
rows whose key field does not strip to the empty string survive. -/
theorem c3_normalized_rows (fm : FolderMeta) (name : String) (info : FileMeta)
    (grid : List (List Cell)) (block : List (List String))
    (hp : ANIProcessor.parse_filename fm name = some info)
    (hn : normalizeFile info grid = .ok block) :
    csvHeader = ["OrgCode", "BranchOrgCode", "DocuDate", "DateYear", "DateMonth",
      "AccCode", "AccName", "AcccumMonthAmnt"] ∧
    ∀ row ∈ block, row.length = 8 ∧
      row.take 5 = ["ANI", info.branchOrgCode,
        "01/" ++ fm.folderMonth ++ "/" ++ fm.folderYear, fm.folderYear, fm.folderMonth] ∧
      pyStrip (row.getD 5 "") ≠ "" := by
  simp only [ANIProcessor.parse_filename] at hp
  split at hp
  case isFalse => cases hp
  case isTrue hfs =>
    cases hp
    unfold normalizeFile at hn
    split at hn
    · cases hn
    · unfold afterAnchor at hn
      split at hn
      case isFalse => cases hn
      case isTrue hmiss =>
        cases hn
        refine ⟨rfl, ?_⟩
        intro row hrow
        rw [List.mem_map] at hrow
        obtain ⟨t, ht, htag⟩ := hrow
        subst htag
        unfold dropEmptyAcc at ht
        rw [List.mem_filter] at ht
        obtain ⟨hmem, hkeep⟩ := ht
        refine ⟨rfl, rfl, ?_⟩
        unfold tagRow
        simp only [List.getD_cons_succ, List.getD_cons_zero]
        unfold keepAcc at hkeep
        cases hc : t.1 with
        | none => rw [hc] at hkeep; cases hkeep
        | some s =>
          rw [hc] at hkeep
          simp only [Bool.not_eq_true', beq_eq_false_iff_ne, ne_eq] at hkeep
          show pyStrip (cellToCsv (some s)) ≠ ""
          exact hkeep

/-- C3 witness: a concrete valid file: the single surviving row has the eight
columns, the constant metadata prefix, and a non-blank key. -/
theorem c3_witness :
    (["ANI", "BKK01", "01/06/2025", "2025", "06", "A1", "Cash", "10"] : List String).length = 8 ∧
    (["ANI", "BKK01", "01/06/2025", "2025", "06", "A1", "Cash", "10"] : List String).take 5
      = ["ANI", bkkInfo.branchOrgCode,
         "01/" ++ juneMeta.folderMonth ++ "/" ++ juneMeta.folderYear,
         juneMeta.folderYear, juneMeta.folderMonth] ∧
    pyStrip ((["ANI", "BKK01", "01/06/2025", "2025", "06", "A1", "Cash", "10"] :
      List String).getD 5 "") ≠ "" :=
  (c3_normalized_rows juneMeta "BKK01_FS25-06.xlsx" bkkInfo w3Grid w3Block
      (by decide) (by decide)).2
    ["ANI", "BKK01", "01/06/2025", "2025", "06", "A1", "Cash", "10"] (by decide)

/-- C4: a file-class error — `.xlsx` name failing the `_FS<YY>-<MM>` pattern,
anchor row absent, or a required column missing — leaves the intermediate
store untouched, appends a skip diagnostic to the log after the unconditional
name print, and the run continues: deleting such a file from the file list
leaves the accumulated store of the whole run unchanged. -/
theorem c4_file_errors_skip (fm : FolderMeta) (st : RunState) (f : FileInput)
    (h : fileClassError fm f) :
    (stepFile fm st f).store = st.store ∧
    (∃ d, isSkipDiag d = true ∧
      (stepFile fm st f).log = st.log ++ [Diag.printedName f.name, d]) ∧
    ∀ pre post, (runLoop fm st (pre ++ f :: post)).store
      = (runLoop fm st (pre ++ post)).store := by
  obtain ⟨hx, herr⟩ := h
  have hblock : fileBlock fm f = none := by
    unfold fileBlock
    rw [if_pos hx]
    rcases herr with hp | ⟨info, d, hp, hn⟩
    · rw [hp]
    · simp only [hp]
      rw [hn]
      rfl
  have hstoreAny : ∀ s : RunState, (stepFile fm s f).store = s.store := by
    intro s
    rw [stepFile_store, hblock]
  have hlog : ∃ d, isSkipDiag d = true ∧
      (stepFile fm st f).log = st.log ++ [Diag.printedName f.name, d] := by
    rcases herr with hp | ⟨info, d, hp, hn⟩
    · refine ⟨Diag.filenamePatternMismatch f.name, rfl, ?_⟩
      unfold stepFile
      rw [if_pos hx, hp]
      simp
    · refine ⟨d, normalizeFile_error_skipDiag info f.grid d hn, ?_⟩
      unfold stepFile
      rw [if_pos hx]
      simp only [hp]
      rw [hn]
      simp
  refine ⟨hstoreAny st, hlog, ?_⟩
  intro pre post
  unfold runLoop
  rw [List.foldl_append, List.foldl_append]
  show (runLoop fm (stepFile fm (runLoop fm st pre) f) post).store
    = (runLoop fm (runLoop fm st pre) post).store
  rw [runLoop_store_char, runLoop_store_char, hstoreAny]

/-- C4 witness: a file named `BADNAME.xlsx` (no `_FS` marker) leaves the
store untouched. -/
theorem c4_witness :
    (stepFile juneMeta ⟨none, none, []⟩ ⟨"BADNAME.xlsx", []⟩).store
      = (⟨none, none, []⟩ : RunState).store :=
  (c4_file_errors_skip juneMeta ⟨none, none, []⟩ ⟨"BADNAME.xlsx", []⟩
    ⟨by decide, Or.inl (by decide)⟩).1

/-- C5: one append writes `csvHeader` exactly when the store does not yet
exist (first two conjuncts), and over a whole run the store ends as the
initial contents — or a single header when there were none — followed by the
per-file blocks flattened in file-processing order, preserving intra-file row
order (third conjunct). -/
theorem c5_accumulator_header_once (fm : FolderMeta) (st : RunState)
    (files : List FileInput) (block : List (List String)) (rows : Store) :
    appendStore none block = some (csvHeader :: block) ∧
    appendStore (some rows) block = some (rows ++ block) ∧
    (runLoop fm st files).store = storeAfter st.store (blocksOf fm files) :=
  ⟨rfl, rfl, runLoop_store_char fm files st⟩

/-- C6: after the file loop of a run started on a purged store, the finalizer
is invoked (once, by the structure of `ANIProcessor.run`) exactly when file
metadata was captured; the captured metadata is that of the LAST file whose
name parsed; and when the store exists the finalizer reads it whole and
writes it as the single artifact `ANI-<year>-<month>` named from that last
metadata. -/
theorem c6_finalizer_contract (fm : FolderMeta) (files : List FileInput) :
    ((ANIProcessor.run fm ⟨none, none, []⟩ files).2.isSome
      ↔ (runLoop fm ⟨none, none, []⟩ files).fileInfo.isSome) ∧
    (runLoop fm ⟨none, none, []⟩ files).fileInfo = lastParsed fm files ∧
    (∀ info rows, (runLoop fm ⟨none, none, []⟩ files).fileInfo = some info →
      (runLoop fm ⟨none, none, []⟩ files).store = some rows →
      (ANIProcessor.run fm ⟨none, none, []⟩ files).2
        = some (.ok ⟨"ANI-" ++ info.dateYear ++ "-" ++ info.dateMonth, rows⟩)) := by
  refine ⟨?_, ?_, ?_⟩
  · show (Option.map _ (runLoop fm ⟨none, none, []⟩ files).fileInfo).isSome ↔ _
    cases (runLoop fm ⟨none, none, []⟩ files).fileInfo <;> simp
  · rw [runLoop_fileInfo_char]
    exact Option.or_none
  · intro info rows h1 h2
    show Option.map _ (runLoop fm ⟨none, none, []⟩ files).fileInfo = _
    rw [h1]
    show some (convert_csv_to_xlsx info (runLoop fm ⟨none, none, []⟩ files).store) = _
    rw [h2]
    rfl

/-- C6 witness: one valid file in `Jun-2025` finalizes into `ANI-2025-06`
containing the header and the single surviving row. -/
theorem c6_witness :
    (ANIProcessor.run juneMeta ⟨none, none, []⟩ w6Files).2
      = some (.ok ⟨"ANI-" ++ bkkInfo.dateYear ++ "-" ++ bkkInfo.dateMonth,
          csvHeader :: w3Block⟩) :=
  (c6_finalizer_contract juneMeta w6Files).2.2 bkkInfo (csvHeader :: w3Block)
    (by decide) (by decide)

/-- C7: the intermediate store is purged at processor construction whatever
its prior contents (even when construction then fails), one folder run gives
identical results whatever store a prior run left behind, and the store a run
accumulates is exactly what `storeAfter` builds from the EMPTY store and the
current folder blocks — no leftover row can appear. -/
theorem c7_store_purged (prior prior2 : Option Store) (name : String)
    (files : List FileInput) (fm : FolderMeta) :
    (ANIProcessor.init prior name).1 = none ∧
    processFolder prior name files = processFolder prior2 name files ∧
    (runLoop fm ⟨(ANIProcessor.init prior name).1, none, []⟩ files).store
      = storeAfter none (blocksOf fm files) :=
  ⟨rfl, rfl, runLoop_store_char fm files ⟨none, none, []⟩⟩

/-- C8: the key-field row filter of line 90 is idempotent: a block with no
empty key fields passes through unchanged, and filtering twice equals
filtering once. -/
theorem c8_filter_idempotent (rows : List (Cell × Cell × Cell)) :
    ((∀ t ∈ rows, keepAcc t.1 = true) → dropEmptyAcc rows = rows) ∧
    dropEmptyAcc (dropEmptyAcc rows) = dropEmptyAcc rows := by
  constructor
  · intro h
    exact List.filter_eq_self.mpr h
  · unfold dropEmptyAcc
    rw [List.filter_filter]
    simp

/-- C8 witness: the filter at a concrete already-clean block. -/
theorem c8_witness :
    dropEmptyAcc [((some "A1" : Cell), (some "Cash" : Cell), (some "10" : Cell))]
      = [((some "A1" : Cell), (some "Cash" : Cell), (some "10" : Cell))] :=
  (c8_filter_idempotent
    [((some "A1" : Cell), (some "Cash" : Cell), (some "10" : Cell))]).1 (by decide)

/-- C9 counterexample: a non-directory entry of the input root is skipped,
but silently — the branch the source takes for it contains no print, so no
diagnostic is emitted, contrary to the claim. -/
theorem c9_counterexample :
    (pymain [⟨"data.bin", false, []⟩] none).1 = [MainEvent.skipNonDir "data.bin"] ∧
    eventHasDiagnostic (MainEvent.skipNonDir "data.bin") = false := by
  exact ⟨rfl, rfl⟩

/-- C9 (amended): on a crash-free scan, every entry of the sorted listing
produces exactly one event — matching directories are processed
(`folderDone`, with an outcome independent of any prior store because each
folder gets a freshly constructed processor), non-matching directories are
skipped WITH a diagnostic, and non-directory entries are skipped silently;
entries are visited in ascending name order. -/
theorem c9_amended (entries : List DirEntry) (prior : Option Store)
    (hok : (pymain entries prior).2.2 = none) :
    (pymain entries prior).1 = (sortEntries entries).map entryEvent ∧
    (sortEntries entries).Pairwise (fun a b => a.name ≤ b.name) ∧
    (∀ n, eventHasDiagnostic (MainEvent.skipWrongFormat n) = true) ∧
    (∀ n, eventHasDiagnostic (MainEvent.skipNonDir n) = false) ∧
    (∀ (p : Option Store) (n : String) (fs : List FileInput),
      processFolder p n fs = processFolder none n fs) :=
  ⟨mainScan_events (sortEntries entries) prior hok, sortEntries_sorted entries,
   fun _ => rfl, fun _ => rfl, fun p n fs => processFolder_prior_irrel p n fs⟩

/-- C9 witness: a two-entry root (one matching folder, one plain file)
scanned crash-free: the events are exactly the per-entry characterization of
the sorted listing. -/
theorem c9_witness :
    (pymain [⟨"Jun-2025", true, []⟩, ⟨"notes.txt", false, []⟩] none).1
      = (sortEntries [⟨"Jun-2025", true, []⟩, ⟨"notes.txt", false, []⟩]).map entryEvent :=
  (c9_amended [⟨"Jun-2025", true, []⟩, ⟨"notes.txt", false, []⟩] none (by rfl)).1

/-- C10: a folder (`Jun-2025`) whose single file has a well-formed name but
an anchorless sheet: nothing is ever appended (the store stays absent), yet
the file metadata is captured, so the finalizer is invoked anyway; it
attempts to read the never-created intermediate store and the per-folder
processing fails on that read instead of skipping finalization — the whole
scan aborts with that error. -/
theorem c10_finalizer_crash :
    parseFolderName "Jun-2025" = .ok juneMeta ∧
    (runLoop juneMeta ⟨none, none, []⟩ c10Files).store = none ∧
    (runLoop juneMeta ⟨none, none, []⟩ c10Files).fileInfo.isSome = true ∧
    (ANIProcessor.run juneMeta ⟨none, none, []⟩ c10Files).2
      = some (.error "read_csv: temp csv file does not exist") ∧
    (pymain [⟨"Jun-2025", true, c10Files⟩] none).2.2
      = some "read_csv: temp csv file does not exist" := by
  refine ⟨by decide, by decide, by decide, by decide, by decide⟩
